import Mathlib

/-!
# Vital-signs monitor: a shallow embedding of `src/code.cpp`

The sketch polls a pulse-oximetry sensor and a piezo sensor once per `loop()` call,
computes SpO2, a smoothed heart rate and a respiration value, drives a buzzer and
renders two lines of text.

Conventions of the embedding.

* The globals of the sketch (`spo2`, `heartRate`, `breathRate`, `criticalBreathCounter`),
  the function-local statics of `checkHeartRate` (`rates`, `rateIndex`, `lastBeat`), the
  level of `BUZZER_PIN`, the text last rendered and the lines printed on the debug channel
  are the fields of `State`; every function of the sketch is a pure function on `State`.
* What the external collaborators return during one `loop()` call (`getRed()`, `getIR()`,
  `millis()`, `checkForBeat(irValue)`, `analogRead(PIEZO_PIN)`) is an `Input`.
* `int` and `long` values are of type `Int`.  `int` is 32 bits wide: the increment of
  `criticalBreathCounter`, the one `int` that can leave the range, wraps around
  (`wrapInt`); the other `int` and `long` values of the sketch stay inside the range in
  the runs considered.  Integer `/` and `%` are the truncating `Int.tdiv` and `Int.tmod`.
* A `float` or `double` value is the rational number it denotes (`ℚ`).  The SpO2
  computation rounds as the hardware does: `float` is IEEE binary32 and `double` IEEE
  binary64, each operation rounding to nearest, ties to even (`toFloat`, `toDouble`);
  exponent overflow and underflow are outside the model.  In `checkHeartRate` only the
  integer part of `60 / (delta / 1000.0)` is used, and it is taken of the exact quotient;
  the conversion of a floating value to `int` truncates toward zero.  A floating
  division by zero (only possible for `delta = 0` in `checkHeartRate`, where C++ gives
  no defined `int`) follows Lean in giving `0`.
-/

namespace Monitor

/-! ## Data model -/

/-- One text argument of `displayData`.  The numeric formatting done by the Arduino
`String` constructors is kept symbolic: `spo2Pct v` stands for `String(v, 1) + "%"` and
`hrBpm n` for `String(n) + " bpm"`. -/
inductive Text where
  | str (s : String)
  | spo2Pct (v : ℚ)
  | hrBpm (n : Int)
  deriving DecidableEq, Repr

/-- The four texts placed by one `displayData` call, at (0,0), (64,0), (0,16), (64,16). -/
structure Screen where
  label1 : Text
  value1 : Text
  label2 : Text
  value2 : Text
  deriving DecidableEq, Repr

/-- Program state: globals, the statics of `checkHeartRate`, and the outputs. -/
structure State where
  /-- `float spo2` -/
  spo2 : ℚ
  /-- `int heartRate` -/
  heartRate : Int
  /-- `int breathRate` -/
  breathRate : Int
  /-- `int criticalBreathCounter` -/
  criticalBreathCounter : Int
  /-- `static int rates[4]` -/
  rates : Fin 4 → Int
  /-- `static int rateIndex` -/
  rateIndex : Int
  /-- `static long lastBeat` -/
  lastBeat : Int
  /-- level of `BUZZER_PIN`: `true` is `HIGH` -/
  buzzer : Bool
  /-- text on the display; `none` is a cleared display -/
  screen : Option Screen
  /-- lines printed on the debug channel, oldest first -/
  debug : List String

/-- What the collaborators return during one `loop()` call. -/
structure Input where
  /-- `particleSensor.getRed()` -/
  red : Int
  /-- `particleSensor.getIR()` -/
  ir : Int
  /-- `millis()` read in `checkHeartRate` -/
  now : Int
  /-- `checkForBeat(irValue)` -/
  beat : Bool
  /-- `analogRead(PIEZO_PIN)` -/
  piezo : Int
  deriving DecidableEq, Repr

/-! ## Arduino core helpers used by the sketch -/

/-- Modelled from the spec: the Arduino macro `constrain(amt, low, high)` is not defined in
the sketch; the specification says the value is clamped to the closed range, which is
the core's `amt < low ? low : (amt > high ? high : amt)`. -/
def constrain (amt low high : Int) : Int :=
  if amt < low then low else if amt > high then high else amt

/-- Modelled from the spec: the Arduino core function `map` is not defined in the sketch;
the specification says the input range is mapped linearly onto the output range, which
in the core's integer arithmetic is
`(x - in_min) * (out_max - out_min) / (in_max - in_min) + out_min`. -/
def map (x in_min in_max out_min out_max : Int) : Int :=
  ((x - in_min) * (out_max - out_min)).tdiv (in_max - in_min) + out_min

/-- Round to the nearest integer, ties to the even one. -/
def rne (q : ℚ) : Int :=
  if q - ⌊q⌋ < 1 / 2 then ⌊q⌋
  else if 1 / 2 < q - ⌊q⌋ then ⌊q⌋ + 1
  else if ⌊q⌋ % 2 = 0 then ⌊q⌋ else ⌊q⌋ + 1

/-- Round to the nearest binary floating-point number with a significand of `p` bits,
ties to even: with `2 ^ e ≤ |q| < 2 ^ (e + 1)` the result is the multiple of
`2 ^ (e - (p - 1))` nearest to `q`. -/
def roundTo (p : Nat) (q : ℚ) : ℚ :=
  if q = 0 then 0
  else (rne (q / (2 : ℚ) ^ (Int.log 2 |q| - ((p : Int) - 1))) : ℚ) *
    (2 : ℚ) ^ (Int.log 2 |q| - ((p : Int) - 1))

/-- The `float` nearest to a value: the result of a `float` operation, of a conversion
to `float`, or of storing into a `float` variable. -/
def toFloat (q : ℚ) : ℚ :=
  roundTo 24 q

/-- The `double` nearest to a value: the result of a `double` operation. -/
def toDouble (q : ℚ) : ℚ :=
  roundTo 53 q

/-- The value of a 32-bit `int` after an operation whose exact result is `x`. -/
def wrapInt (x : Int) : Int :=
  (x + 2147483648) % 4294967296 - 2147483648

/-- Conversion of a floating value to `int`: truncation toward zero. -/
def truncToInt (q : ℚ) : Int :=
  q.num.tdiv q.den

/-- `digitalWrite(BUZZER_PIN, level)`. -/
def digitalWriteBuzzer (level : Bool) (s : State) : State :=
  { s with buzzer := level }

/-! ## The sketch -/

/-- `displayData`: clears the display and renders the four texts. -/
def displayData (label1 value1 label2 value2 : Text) (s : State) : State :=
  { s with screen := some ⟨label1, value1, label2, value2⟩ }

/-- `triggerAlarm`: buzzer `HIGH` and one line on the debug channel. -/
def triggerAlarm (s : State) : State :=
  { digitalWriteBuzzer true s with debug := s.debug ++ ["CRITICAL PARAMETERS!"] }

/-- `calculateBreathRate`. -/
def calculateBreathRate (piezoValue : Int) : Int :=
  map piezoValue 0 1023 10 30

/-- The assignment `rates[i] = v`.  An index outside `0..3` is a write outside the array,
for which C++ defines nothing; it leaves the four slots as they are. -/
def setRate (rates : Fin 4 → Int) (i : Int) (v : Int) : Fin 4 → Int :=
  fun j => if (j.val : Int) = i then v else rates j

/-- `int sum = 0; for (int i = 0; i < 4; i++) sum += rates[i];` -/
def sumRates (rates : Fin 4 → Int) : Int :=
  (List.finRange 4).foldl (fun sum i => sum + rates i) 0

/-- `int bpm = 60 / (delta / 1000.0);` -/
def rawBpm (delta : Int) : Int :=
  truncToInt (60 / ((delta : ℚ) / 1000))

/-- `checkHeartRate`.  `beat` is the result of `checkForBeat(irValue)` and `currentTime`
the result of `millis()`.  Returns the function result and the state after the call. -/
def checkHeartRate (beat : Bool) (currentTime : Int) (s : State) : Int × State :=
  if beat then
    let delta := currentTime - s.lastBeat
    let bpm := constrain (rawBpm delta) 30 180
    let rates := setRate s.rates s.rateIndex bpm
    let rateIndex := (s.rateIndex + 1).tmod 4
    ((sumRates rates).tdiv 4,
      { s with lastBeat := currentTime, rates := rates, rateIndex := rateIndex })
  else
    (s.heartRate, s)

/-- One call of `loop()`.  `(float)red / (float)ir` is a `float` division, `17.0 * R` and
`104.0 - ...` are `double` operations and the result is stored into the `float` `spo2`.
The closing `delay(1000)` changes no variable of the sketch; it only bears on the
`millis()` value a later call reads, which is an `Input`. -/
def loop (inp : Input) (s : State) : State :=
  if inp.ir < 50000 then
    displayData (.str "No finger") (.str "") (.str "") (.str "") s
  else
    let R : ℚ := toFloat (toFloat (inp.red : ℚ) / toFloat (inp.ir : ℚ))
    let s1 : State := { s with spo2 := toFloat (toDouble (104 - toDouble (17 * R))) }
    let r := checkHeartRate inp.beat inp.now s1
    let s2 : State := { r.2 with heartRate := r.1 }
    let s3 : State :=
      if inp.piezo > 1000 then
        { s2 with criticalBreathCounter := wrapInt (s2.criticalBreathCounter + 1) }
      else
        { s2 with criticalBreathCounter := 0 }
    let s4 : State := { s3 with breathRate := calculateBreathRate inp.piezo }
    let s5 : State :=
      if s4.spo2 < 95 ∨ s4.heartRate > 150 ∨ s4.criticalBreathCounter > 300 then
        triggerAlarm s4
      else
        digitalWriteBuzzer false s4
    displayData (.str "SpO2:") (.spo2Pct s5.spo2) (.str "HR:") (.hrBpm s5.heartRate) s5

/-- The state in which `loop()` is first entered: the zero-initialised globals and
statics, the buzzer `LOW` and the display cleared by `setup()`, one line printed. -/
def initState : State where
  spo2 := 0
  heartRate := 0
  breathRate := 0
  criticalBreathCounter := 0
  rates := fun _ => 0
  rateIndex := 0
  lastBeat := 0
  buzzer := false
  screen := none
  debug := ["Initializing..."]

/-- The state after a sequence of `loop()` calls, first input first. -/
def runLoop (inps : List Input) (s : State) : State :=
  inps.foldl (fun st inp => loop inp st) s

/-! ## Concrete inputs used to exercise the theorems -/

/-- A monitoring reading with `red / ir = 1`, which gives `spo2 = 87`. -/
def hypoxicInput : Input := ⟨60000, 60000, 1000, false, 0⟩

/-- A reading with the finger off the sensor. -/
def noFingerInput : Input := ⟨0, 30000, 2000, false, 0⟩

/-- A monitoring reading with a beat at 500 ms and a critical piezo value. -/
def beatInput : Input := ⟨30000, 60000, 500, true, 1001⟩

/-- Four detected beats 500 ms apart from the initial state, each result stored in
`heartRate` as `loop` does. -/
def fourBeats : Int × State :=
  let r1 := checkHeartRate true 500 initState
  let r2 := checkHeartRate true 1000 { r1.2 with heartRate := r1.1 }
  let r3 := checkHeartRate true 1500 { r2.2 with heartRate := r2.1 }
  checkHeartRate true 2000 { r3.2 with heartRate := r3.1 }

/-- A monitoring reading with `red / ir = 1/2`, no beat, and a critical piezo value. -/
def apneaInput : Input := ⟨30000, 60000, 1000, false, 1001⟩

/-- A monitoring reading with a beat at 1500 ms, one second after `beatInput`. -/
def lateBeatInput : Input := ⟨30000, 60000, 1500, true, 0⟩

/-- A sequence of `checkHeartRate` calls, each given by the beat flag and the clock value
it reads, every result stored in `heartRate` as `loop` does with
`heartRate = checkHeartRate(ir)`. -/
def runCheckHeartRate (calls : List (Bool × Int)) (s : State) : State :=
  calls.foldl
    (fun st c =>
      { (checkHeartRate c.1 c.2 st).2 with heartRate := (checkHeartRate c.1 c.2 st).1 })
    s

/-- Number of beats detected in a run: the monitoring iterations whose `checkForBeat`
call reported a beat. -/
def beatCount (inps : List Input) : Nat :=
  inps.countP (fun inp => decide (50000 ≤ inp.ir) && inp.beat)

/-- State of the ring buffer after `k` detected beats: the write index is `k mod 4`, the
slots below `k` hold a value in `[30, 180]`, and every slot holds 0 or such a value. -/
def SlotsWritten (k : Nat) (s : State) : Prop :=
  s.rateIndex = ((k % 4 : Nat) : Int) ∧
  ∀ j : Fin 4,
    (j.val < k → 30 ≤ s.rates j ∧ s.rates j ≤ 180) ∧
    (s.rates j = 0 ∨ (30 ≤ s.rates j ∧ s.rates j ≤ 180))

/-- Clock assumption on a run: every monitoring iteration reads a clock value at least
1000 ms after the one read by the monitoring iteration before it (`prev`, when there is
one), which is what the closing `delay(1000)` of a monitoring iteration and a monotonic
clock give.  Iterations with the finger off read no clock. -/
def clockSpaced : Option Int → List Input → Prop
  | _, [] => True
  | prev, inp :: rest =>
    if inp.ir < 50000 then clockSpaced prev rest
    else (∀ t ∈ prev, t + 1000 ≤ inp.now) ∧ clockSpaced (some inp.now) rest

/-- Clock value read by the last monitoring iteration of a run (`prev` when the run has
none). -/
def lastClock : Option Int → List Input → Option Int
  | prev, [] => prev
  | prev, inp :: rest =>
    if inp.ir < 50000 then lastClock prev rest else lastClock (some inp.now) rest

/-- State of the estimator after `k` detected beats under the clock assumption, `prev`
being the clock value of the last monitoring iteration: slot 0 holds at most 180 and the
other slots at most 60, none is negative; before the first beat the write index is 0,
and after it `lastBeat` is not later than `prev`. -/
def SlowBeats (k : Nat) (prev : Option Int) (s : State) : Prop :=
  (∀ j : Fin 4, 0 ≤ s.rates j) ∧
  s.rates 0 ≤ 180 ∧ s.rates 1 ≤ 60 ∧ s.rates 2 ≤ 60 ∧ s.rates 3 ≤ 60 ∧
  (k = 0 → s.rateIndex = 0) ∧
  (0 < k → ∃ t, prev = some t ∧ s.lastBeat ≤ t)

/-! ## Arithmetic of the helpers -/

theorem truncToInt_eq_floor (q : ℚ) :
    truncToInt q = if 0 ≤ q then ⌊q⌋ else -⌊-q⌋ := by
  unfold truncToInt
  split_ifs with h
  · rw [Rat.floor_def]
    exact Int.tdiv_eq_ediv (Rat.num_nonneg.mpr h) (Int.ofNat_nonneg _)
  · have hn : q.num < 0 := by
      by_contra hc
      exact h (Rat.num_nonneg.mp (not_lt.mp hc))
    rw [Rat.floor_def, Rat.num_neg_eq_neg_num, Rat.den_neg_eq_den,
      ← Int.tdiv_eq_ediv (by omega) (Int.ofNat_nonneg _), Int.neg_tdiv, neg_neg]

theorem truncToInt_div_pos (a b : Int) (hb : 0 < b) :
    truncToInt ((a : ℚ) / (b : ℚ)) = a.tdiv b := by
  have hbq : (0 : ℚ) < (b : ℚ) := by exact_mod_cast hb
  obtain ⟨n, rfl⟩ := Int.eq_ofNat_of_zero_le hb.le
  rw [truncToInt_eq_floor]
  split_ifs with h
  · have ha : 0 ≤ a := by
      by_contra hc
      have : (a : ℚ) < 0 := by exact_mod_cast not_le.mp hc
      exact absurd h (not_le.mpr (div_neg_of_neg_of_pos this hbq))
    have := Rat.floor_intCast_div_natCast a n
    simp only [Int.cast_natCast] at this ⊢
    rw [this, Int.tdiv_eq_ediv ha (Int.ofNat_nonneg _)]
  · have ha : a < 0 := by
      by_contra hc
      have : (0 : ℚ) ≤ (a : ℚ) := by exact_mod_cast not_lt.mp hc
      exact h (div_nonneg this hbq.le)
    have := Rat.floor_intCast_div_natCast (-a) n
    simp only [Int.cast_natCast, Int.cast_neg] at this ⊢
    rw [← neg_div, this, ← Int.tdiv_eq_ediv (by omega) (Int.ofNat_nonneg _), Int.neg_tdiv,
      neg_neg]

/-- Truncating a quotient of two integers is the truncating integer division. -/
theorem truncToInt_div (a b : Int) : truncToInt ((a : ℚ) / (b : ℚ)) = a.tdiv b := by
  rcases lt_trichotomy b 0 with hb | hb | hb
  · have h := truncToInt_div_pos (-a) (-b) (by omega)
    simp only [Int.cast_neg, neg_div_neg_eq] at h
    rw [h, Int.neg_tdiv, Int.tdiv_neg, neg_neg]
  · subst hb
    simp [truncToInt]
  · exact truncToInt_div_pos a b hb

/-- The raw rate is the truncating integer quotient `60000 / delta`. -/
theorem rawBpm_eq_tdiv (delta : Int) : rawBpm delta = (60000 : Int).tdiv delta := by
  unfold rawBpm
  rw [← truncToInt_div]
  congr 1
  rw [div_div_eq_mul_div]
  norm_num

theorem constrain_bounds (amt low high : Int) (h : low ≤ high) :
    low ≤ constrain amt low high ∧ constrain amt low high ≤ high := by
  unfold constrain
  split_ifs <;> omega

theorem sumRates_eq (rates : Fin 4 → Int) :
    sumRates rates = rates 0 + rates 1 + rates 2 + rates 3 := by
  simp [sumRates, List.finRange]
  rfl

/-! ## Rounding and wrap-around -/

theorem rne_eq (q : ℚ) (n : Int) (h1 : (n : ℚ) - 1 / 2 < q) (h2 : q < (n : ℚ) + 1 / 2) :
    rne q = n := by
  have hf1 : (⌊q⌋ : ℚ) ≤ q := Int.floor_le q
  have hf2 : q < (⌊q⌋ : ℚ) + 1 := Int.lt_floor_add_one q
  unfold rne
  split_ifs with c1 c2 c3
  · have a : (n : ℚ) - 1 < ⌊q⌋ := by linarith
    have b : (⌊q⌋ : ℚ) < n + 1 := by linarith
    have a1 : n - 1 < ⌊q⌋ := by exact_mod_cast a
    have b1 : ⌊q⌋ < n + 1 := by exact_mod_cast b
    omega
  · have a : (n : ℚ) - 1 < ⌊q⌋ + 1 := by linarith
    have b : ((⌊q⌋ : ℚ) + 1) < n + 1 := by linarith
    have a1 : n - 1 < ⌊q⌋ + 1 := by exact_mod_cast a
    have b1 : ⌊q⌋ + 1 < n + 1 := by exact_mod_cast b
    omega
  · have e : q - ⌊q⌋ = 1 / 2 := le_antisymm (not_lt.mp c2) (not_lt.mp c1)
    have a : (n : ℚ) - 1 < ⌊q⌋ := by linarith
    have b : (⌊q⌋ : ℚ) < n := by linarith
    have a1 : n - 1 < ⌊q⌋ := by exact_mod_cast a
    have b1 : ⌊q⌋ < n := by exact_mod_cast b
    omega
  · have e : q - ⌊q⌋ = 1 / 2 := le_antisymm (not_lt.mp c2) (not_lt.mp c1)
    have a : (n : ℚ) - 1 < ⌊q⌋ := by linarith
    have b : (⌊q⌋ : ℚ) < n := by linarith
    have a1 : n - 1 < ⌊q⌋ := by exact_mod_cast a
    have b1 : ⌊q⌋ < n := by exact_mod_cast b
    omega

theorem log_abs_eq (q : ℚ) (e : Int) (h1 : (2 : ℚ) ^ e ≤ |q|)
    (h2 : |q| < (2 : ℚ) ^ (e + 1)) : Int.log 2 |q| = e := by
  have hpos : 0 < |q| := lt_of_lt_of_le (zpow_pos (by norm_num) e) h1
  have a : e ≤ Int.log 2 |q| :=
    (Int.zpow_le_iff_le_log (by norm_num) hpos).mp (by exact_mod_cast h1)
  have b : Int.log 2 |q| < e + 1 :=
    (Int.lt_zpow_iff_log_lt (by norm_num) hpos).mp (by exact_mod_cast h2)
  omega

/-- The rounded value, given the binade of `q` and the integer nearest to the scaled
value. -/
theorem roundTo_eq (p : Nat) (q : ℚ) (e n : Int) (h1 : (2 : ℚ) ^ e ≤ |q|)
    (h2 : |q| < (2 : ℚ) ^ (e + 1))
    (h3 : (n : ℚ) - 1 / 2 < q / (2 : ℚ) ^ (e - ((p : Int) - 1)))
    (h4 : q / (2 : ℚ) ^ (e - ((p : Int) - 1)) < (n : ℚ) + 1 / 2) :
    roundTo p q = (n : ℚ) * (2 : ℚ) ^ (e - ((p : Int) - 1)) := by
  have hpos : 0 < |q| := lt_of_lt_of_le (zpow_pos (by norm_num) e) h1
  have hq : q ≠ 0 := abs_pos.mp hpos
  unfold roundTo
  rw [if_neg hq, log_abs_eq q e h1 h2, rne_eq _ n h3 h4]

theorem wrapInt_of_range (x : Int) (h1 : -2147483648 ≤ x) (h2 : x ≤ 2147483647) :
    wrapInt x = x := by
  unfold wrapInt
  omega

theorem wrapInt_range (x : Int) : -2147483648 ≤ wrapInt x ∧ wrapInt x ≤ 2147483647 := by
  unfold wrapInt
  omega

theorem wrapInt_add (a b : Int) : wrapInt (wrapInt a + b) = wrapInt (a + b) := by
  unfold wrapInt
  omega

/-! ## Values of the SpO2 expression on the concrete inputs -/

theorem toFloat_60000 : toFloat 60000 = 60000 := by
  unfold toFloat
  rw [roundTo_eq 24 _ 15 15360000] <;> norm_num [abs_of_pos]

theorem toFloat_30000 : toFloat 30000 = 30000 := by
  unfold toFloat
  rw [roundTo_eq 24 _ 14 15360000] <;> norm_num [abs_of_pos]

theorem toFloat_one : toFloat 1 = 1 := by
  unfold toFloat
  rw [roundTo_eq 24 _ 0 8388608] <;> norm_num [abs_of_pos]

theorem toFloat_half : toFloat (1 / 2) = 1 / 2 := by
  unfold toFloat
  rw [roundTo_eq 24 _ (-1) 8388608] <;> norm_num [abs_of_pos]

theorem toDouble_17 : toDouble 17 = 17 := by
  unfold toDouble
  rw [roundTo_eq 53 _ 4 (17 * 281474976710656)] <;> norm_num [abs_of_pos]

theorem toDouble_87 : toDouble 87 = 87 := by
  unfold toDouble
  rw [roundTo_eq 53 _ 6 (87 * 70368744177664)] <;> norm_num [abs_of_pos]

theorem toFloat_87 : toFloat 87 = 87 := by
  unfold toFloat
  rw [roundTo_eq 24 _ 6 (87 * 131072)] <;> norm_num [abs_of_pos]

theorem toDouble_17_half : toDouble (17 / 2) = 17 / 2 := by
  unfold toDouble
  rw [roundTo_eq 53 _ 3 (17 * 281474976710656)] <;> norm_num [abs_of_pos]

theorem toDouble_191_half : toDouble (191 / 2) = 191 / 2 := by
  unfold toDouble
  rw [roundTo_eq 53 _ 6 (191 * 35184372088832)] <;> norm_num [abs_of_pos]

theorem toFloat_191_half : toFloat (191 / 2) = 191 / 2 := by
  unfold toFloat
  rw [roundTo_eq 24 _ 6 (191 * 65536)] <;> norm_num [abs_of_pos]

/-- `red = ir = 60000` stores `spo2 = 87`. -/
theorem spo2_value_one :
    toFloat (toDouble (104 - toDouble (17 * toFloat (toFloat 60000 / toFloat 60000)))) = 87 := by
  rw [toFloat_60000, show (60000 : ℚ) / 60000 = 1 by norm_num, toFloat_one,
    show (17 : ℚ) * 1 = 17 by norm_num, toDouble_17, show (104 : ℚ) - 17 = 87 by norm_num,
    toDouble_87, toFloat_87]

/-- `red = 30000`, `ir = 60000` stores `spo2 = 95.5`. -/
theorem spo2_value_half :
    toFloat (toDouble (104 - toDouble (17 * toFloat (toFloat 30000 / toFloat 60000)))) =
      191 / 2 := by
  rw [toFloat_60000, toFloat_30000, show (30000 : ℚ) / 60000 = 1 / 2 by norm_num, toFloat_half,
    show (17 : ℚ) * (1 / 2) = 17 / 2 by norm_num, toDouble_17_half,
    show (104 : ℚ) - 17 / 2 = 191 / 2 by norm_num, toDouble_191_half, toFloat_191_half]

theorem checkHeartRate_noBeat (now : Int) (s : State) :
    checkHeartRate false now s = (s.heartRate, s) := by
  simp [checkHeartRate]

theorem checkHeartRate_beat (now : Int) (s : State) :
    checkHeartRate true now s =
      ((sumRates (setRate s.rates s.rateIndex
          (constrain (rawBpm (now - s.lastBeat)) 30 180))).tdiv 4,
        { s with
          lastBeat := now
          rates := setRate s.rates s.rateIndex (constrain (rawBpm (now - s.lastBeat)) 30 180)
          rateIndex := (s.rateIndex + 1).tmod 4 }) := by
  simp [checkHeartRate]

/-- The estimator reads neither `spo2` nor the outputs. -/
theorem checkHeartRate_spo2 (beat : Bool) (now : Int) (s : State) (x : ℚ) :
    checkHeartRate beat now { s with spo2 := x } =
      ((checkHeartRate beat now s).1, { (checkHeartRate beat now s).2 with spo2 := x }) := by
  cases beat <;> simp [checkHeartRate]

theorem checkHeartRate_criticalBreathCounter (beat : Bool) (now : Int) (s : State) :
    (checkHeartRate beat now s).2.criticalBreathCounter = s.criticalBreathCounter := by
  cases beat <;> simp [checkHeartRate]

theorem displayData_buzzer (label1 value1 label2 value2 : Text) (s : State) :
    (displayData label1 value1 label2 value2 s).buzzer = s.buzzer := rfl

theorem loop_noFinger (inp : Input) (s : State) (h : inp.ir < 50000) :
    loop inp s = displayData (.str "No finger") (.str "") (.str "") (.str "") s := by
  simp [loop, h]

theorem loop_spo2 (inp : Input) (s : State) (h : 50000 ≤ inp.ir) :
    (loop inp s).spo2 =
      toFloat (toDouble (104 - toDouble
        (17 * toFloat (toFloat (inp.red : ℚ) / toFloat (inp.ir : ℚ))))) := by
  have h1 : ¬ inp.ir < 50000 := not_lt.mpr h
  simp only [loop, h1, if_false, displayData, triggerAlarm, digitalWriteBuzzer,
    checkHeartRate_spo2]
  split_ifs <;> rfl

theorem loop_heartRate (inp : Input) (s : State) (h : 50000 ≤ inp.ir) :
    (loop inp s).heartRate = (checkHeartRate inp.beat inp.now s).1 := by
  have h1 : ¬ inp.ir < 50000 := not_lt.mpr h
  simp only [loop, h1, if_false, displayData, triggerAlarm, digitalWriteBuzzer,
    checkHeartRate_spo2]
  split_ifs <;> rfl

theorem loop_criticalBreathCounter (inp : Input) (s : State) (h : 50000 ≤ inp.ir) :
    (loop inp s).criticalBreathCounter =
      if inp.piezo > 1000 then wrapInt (s.criticalBreathCounter + 1) else 0 := by
  have h1 : ¬ inp.ir < 50000 := not_lt.mpr h
  simp only [loop, h1, if_false, displayData, triggerAlarm, digitalWriteBuzzer,
    checkHeartRate_spo2, checkHeartRate_criticalBreathCounter]
  split_ifs <;> rfl

theorem loop_estimator (inp : Input) (s : State) (h : 50000 ≤ inp.ir) :
    (loop inp s).rates = (checkHeartRate inp.beat inp.now s).2.rates ∧
    (loop inp s).rateIndex = (checkHeartRate inp.beat inp.now s).2.rateIndex ∧
    (loop inp s).lastBeat = (checkHeartRate inp.beat inp.now s).2.lastBeat := by
  have h1 : ¬ inp.ir < 50000 := not_lt.mpr h
  simp only [loop, h1, if_false, displayData, triggerAlarm, digitalWriteBuzzer,
    checkHeartRate_spo2]
  split_ifs <;> exact ⟨rfl, rfl, rfl⟩

theorem loop_buzzer (inp : Input) (s : State) (h : 50000 ≤ inp.ir) :
    (loop inp s).buzzer =
      decide ((loop inp s).spo2 < 95 ∨ (loop inp s).heartRate > 150 ∨
        (loop inp s).criticalBreathCounter > 300) := by
  have h1 : ¬ inp.ir < 50000 := not_lt.mpr h
  simp only [loop, h1, if_false, displayData, triggerAlarm, digitalWriteBuzzer,
    checkHeartRate_spo2]
  split_ifs with hp hc hc
  · simpa using hc
  · simpa using hc
  · simpa using hc
  · simpa using hc

theorem calculateBreathRate_eq (x : Int) (h0 : 0 ≤ x) :
    calculateBreathRate x = x * 20 / 1023 + 10 := by
  unfold calculateBreathRate map
  have h : ((x - 0) * (30 - 10) : Int) = x * 20 := by ring
  rw [h, show ((1023 : Int) - 0) = 1023 by norm_num,
    Int.tdiv_eq_ediv (by omega) (by norm_num)]

theorem runLoop_nil (s : State) : runLoop [] s = s := rfl

theorem runLoop_cons (inp : Input) (inps : List Input) (s : State) :
    runLoop (inp :: inps) s = runLoop inps (loop inp s) := rfl

theorem runLoop_append (xs ys : List Input) (s : State) :
    runLoop (xs ++ ys) s = runLoop ys (runLoop xs s) := by
  simp [runLoop, List.foldl_append]

/-- In a run whose monitoring iterations all read a piezo value above 1000 the counter
grows by the number of monitoring iterations, within the 32-bit range; iterations with
the finger off read no piezo value and leave it alone. -/
theorem runLoop_criticalBreathCounter (inps : List Input) (s : State)
    (hs : -2147483648 ≤ s.criticalBreathCounter ∧ s.criticalBreathCounter ≤ 2147483647)
    (h : ∀ inp ∈ inps, 50000 ≤ inp.ir → 1000 < inp.piezo) :
    (runLoop inps s).criticalBreathCounter =
      wrapInt (s.criticalBreathCounter +
        (inps.countP (fun inp => decide (50000 ≤ inp.ir)) : Nat)) := by
  induction inps generalizing s with
  | nil =>
    rw [runLoop_nil, List.countP_nil, Nat.cast_zero, add_zero]
    exact (wrapInt_of_range _ hs.1 hs.2).symm
  | cons inp rest ih =>
    rw [runLoop_cons]
    by_cases hir : 50000 ≤ inp.ir
    · have hstep : (loop inp s).criticalBreathCounter =
          wrapInt (s.criticalBreathCounter + 1) := by
        rw [loop_criticalBreathCounter _ _ hir, if_pos (h inp (List.mem_cons_self _ _) hir)]
      rw [ih (loop inp s) (by rw [hstep]; exact wrapInt_range _)
          (fun j hj => h j (List.mem_cons_of_mem _ hj)),
        hstep, wrapInt_add, List.countP_cons_of_pos _ _ (by simpa using hir)]
      push_cast
      congr 1
      ring
    · have hstep : (loop inp s).criticalBreathCounter = s.criticalBreathCounter := by
        rw [loop_noFinger inp s (not_le.mp hir)]
        rfl
      rw [ih (loop inp s) (by rw [hstep]; exact hs)
          (fun j hj => h j (List.mem_cons_of_mem _ hj)),
        hstep, List.countP_cons_of_neg _ _ (by simpa using hir)]

/-! ## The claims -/

/-- C1: in a monitoring iteration (IR reading at least 50000), from any prior state, the
buzzer is HIGH after the iteration exactly when `spo2 < 95` or `heartRate > 150` or
`criticalBreathCounter > 300` holds for the values computed in that iteration (the `float`
SpO2 computed from this iteration's readings, the heart rate returned by this iteration's
`checkHeartRate` call, the counter after its update), and LOW exactly when none of the
three holds. -/
theorem loop_alarm_iff (inp : Input) (s : State) (h : 50000 ≤ inp.ir) :
    (loop inp s).spo2 =
      toFloat (toDouble (104 - toDouble
        (17 * toFloat (toFloat (inp.red : ℚ) / toFloat (inp.ir : ℚ))))) ∧
    (loop inp s).heartRate = (checkHeartRate inp.beat inp.now s).1 ∧
    (loop inp s).criticalBreathCounter =
      (if inp.piezo > 1000 then wrapInt (s.criticalBreathCounter + 1) else 0) ∧
    ((loop inp s).buzzer = true ↔
      ((loop inp s).spo2 < 95 ∨ (loop inp s).heartRate > 150 ∨
        (loop inp s).criticalBreathCounter > 300)) ∧
    ((loop inp s).buzzer = false ↔
      ¬ ((loop inp s).spo2 < 95 ∨ (loop inp s).heartRate > 150 ∨
        (loop inp s).criticalBreathCounter > 300)) := by
  refine ⟨loop_spo2 inp s h, loop_heartRate inp s h, loop_criticalBreathCounter inp s h, ?_, ?_⟩
  · rw [loop_buzzer inp s h, decide_eq_true_iff]
  · rw [loop_buzzer inp s h, decide_eq_false_iff_not]

theorem loop_alarm_iff_witness :
    50000 ≤ hypoxicInput.ir ∧
    ((loop hypoxicInput initState).buzzer = true ↔
      ((loop hypoxicInput initState).spo2 < 95 ∨ (loop hypoxicInput initState).heartRate > 150 ∨
        (loop hypoxicInput initState).criticalBreathCounter > 300)) :=
  ⟨by decide, (loop_alarm_iff hypoxicInput initState (by decide)).2.2.2.1⟩

/-- C3: on a detected beat with `delta = now - lastBeat > 0` and the write index on slot
`i`, the value `checkHeartRate` writes into slot `i` is the truncated quotient
`60000 / delta` (the integer part of the exact quotient) clamped to `[30, 180]`: 30 when
the quotient is below 30, 180 when it is above 180, the quotient itself otherwise;
`delta = 500` stores 120.  The other slots keep their values. -/
theorem checkHeartRate_stores_clamped (s : State) (now : Int) (i : Fin 4)
    (hi : s.rateIndex = (i.val : Int)) (hd : 0 < now - s.lastBeat) :
    (60000 : Int).tdiv (now - s.lastBeat) = ⌊(60000 : ℚ) / ((now - s.lastBeat : Int) : ℚ)⌋ ∧
    ((60000 : Int).tdiv (now - s.lastBeat) < 30 →
      (checkHeartRate true now s).2.rates i = 30) ∧
    (180 < (60000 : Int).tdiv (now - s.lastBeat) →
      (checkHeartRate true now s).2.rates i = 180) ∧
    (30 ≤ (60000 : Int).tdiv (now - s.lastBeat) →
      (60000 : Int).tdiv (now - s.lastBeat) ≤ 180 →
      (checkHeartRate true now s).2.rates i = (60000 : Int).tdiv (now - s.lastBeat)) ∧
    (now - s.lastBeat = 500 → (checkHeartRate true now s).2.rates i = 120) ∧
    (∀ j : Fin 4, j ≠ i → (checkHeartRate true now s).2.rates j = s.rates j) := by
  have hw : (checkHeartRate true now s).2.rates i =
      constrain ((60000 : Int).tdiv (now - s.lastBeat)) 30 180 := by
    simp [checkHeartRate_beat, setRate, hi, rawBpm_eq_tdiv]
  refine ⟨?_, ?_, ?_, ?_, ?_, ?_⟩
  · obtain ⟨n, hn⟩ := Int.eq_ofNat_of_zero_le hd.le
    rw [hn, Int.tdiv_eq_ediv (by norm_num) (Int.ofNat_nonneg n)]
    have := Rat.floor_intCast_div_natCast 60000 n
    simp only [Int.cast_natCast, Int.cast_ofNat] at this ⊢
    exact this.symm
  · intro h
    rw [hw, constrain, if_pos h]
  · intro h
    rw [hw, constrain, if_neg (by omega), if_pos h]
  · intro h1 h2
    rw [hw, constrain, if_neg (by omega), if_neg (by omega)]
  · intro h
    rw [hw, h]
    decide
  · intro j hj
    have hne : ¬ ((j.val : Int) = s.rateIndex) := by
      rw [hi]
      intro hc
      exact hj (Fin.ext (by exact_mod_cast hc))
    simp [checkHeartRate_beat, setRate, hne]

theorem checkHeartRate_stores_clamped_witness :
    initState.rateIndex = ((0 : Fin 4).val : Int) ∧ 0 < (500 : Int) - initState.lastBeat ∧
    ((500 : Int) - initState.lastBeat = 500 →
      (checkHeartRate true 500 initState).2.rates 0 = 120) :=
  ⟨by decide, by decide,
    (checkHeartRate_stores_clamped initState 500 0 (by decide) (by decide)).2.2.2.2.1⟩

/-- C4, as stated, fails: `criticalBreathCounter` is a 32-bit `int`.  From the initial
state, after 2147483647 consecutive monitoring iterations with a piezo reading above 1000
the counter is 2147483647, and after one more (`k = 2147483648`) it is `-2147483648`, not
`k`: that reading did not add 1. -/
theorem criticalBreathCounter_streak_counterexample :
    initState.criticalBreathCounter = 0 ∧
    (50000 ≤ apneaInput.ir ∧ 1000 < apneaInput.piezo) ∧
    (runLoop (List.replicate 2147483647 apneaInput) initState).criticalBreathCounter =
      2147483647 ∧
    (runLoop (List.replicate 2147483648 apneaInput) initState).criticalBreathCounter =
      -2147483648 ∧
    (runLoop (List.replicate 2147483648 apneaInput) initState).criticalBreathCounter ≠
      ((List.replicate 2147483648 apneaInput).length : Int) := by
  have hcount : ∀ n : Nat,
      (runLoop (List.replicate n apneaInput) initState).criticalBreathCounter =
        wrapInt (n : Int) := by
    intro n
    rw [runLoop_criticalBreathCounter _ initState (by decide)
        (fun inp hin _ => by rw [List.eq_of_mem_replicate hin]; decide),
      List.countP_eq_length.mpr
        (fun inp hin => by rw [List.eq_of_mem_replicate hin]; decide),
      List.length_replicate]
    congr 1
    exact zero_add _
  refine ⟨rfl, by decide, ?_, ?_, ?_⟩
  · rw [hcount]
    decide
  · rw [hcount]
    decide
  · rw [hcount, List.length_replicate]
    decide

/-- C4, amended: starting from `criticalBreathCounter = 0`, after a run of `loop()` calls
in which every piezo reading processed (one per monitoring iteration) is above 1000 and
the number `k` of readings processed is at most 2147483647, the counter equals `k`; each
such reading adds exactly 1 when the counter before it is in the 32-bit range and below
2147483647; and a reading of at most 1000 leaves the counter at 0 whatever it was
before. -/
theorem criticalBreathCounter_streak (s : State) (inps : List Input)
    (h0 : s.criticalBreathCounter = 0)
    (h : ∀ inp ∈ inps, 50000 ≤ inp.ir → 1000 < inp.piezo)
    (hk : inps.countP (fun inp => decide (50000 ≤ inp.ir)) ≤ 2147483647) :
    (runLoop inps s).criticalBreathCounter =
      (inps.countP (fun inp => decide (50000 ≤ inp.ir)) : Nat) ∧
    ((∀ inp ∈ inps, 50000 ≤ inp.ir) →
      (runLoop inps s).criticalBreathCounter = (inps.length : Nat)) ∧
    (∀ (t : State) (inp : Input), 50000 ≤ inp.ir → 1000 < inp.piezo →
      -2147483648 ≤ t.criticalBreathCounter → t.criticalBreathCounter < 2147483647 →
      (loop inp t).criticalBreathCounter = t.criticalBreathCounter + 1) ∧
    (∀ (t : State) (inp : Input), 50000 ≤ inp.ir → inp.piezo ≤ 1000 →
      (loop inp t).criticalBreathCounter = 0) := by
  have hc : (runLoop inps s).criticalBreathCounter =
      (inps.countP (fun inp => decide (50000 ≤ inp.ir)) : Nat) := by
    rw [runLoop_criticalBreathCounter inps s (by rw [h0]; decide) h, h0, zero_add]
    exact wrapInt_of_range _ (by omega) (by omega)
  refine ⟨hc, ?_, ?_, ?_⟩
  · intro hall
    rw [hc, List.countP_eq_length.mpr (fun inp hin => by simpa using hall inp hin)]
  · intro t inp hir hp hlo hhi
    rw [loop_criticalBreathCounter inp t hir, if_pos hp]
    exact wrapInt_of_range _ (by omega) (by omega)
  · intro t inp hir hp
    rw [loop_criticalBreathCounter inp t hir, if_neg (by omega)]

theorem criticalBreathCounter_streak_witness :
    initState.criticalBreathCounter = 0 ∧
    (∀ inp ∈ [beatInput, noFingerInput, beatInput, beatInput],
      50000 ≤ inp.ir → 1000 < inp.piezo) ∧
    [beatInput, noFingerInput, beatInput, beatInput].countP
      (fun inp => decide (50000 ≤ inp.ir)) ≤ 2147483647 ∧
    (runLoop [beatInput, noFingerInput, beatInput, beatInput] initState).criticalBreathCounter
      = (3 : Nat) :=
  ⟨rfl, by decide, by decide,
    (criticalBreathCounter_streak initState [beatInput, noFingerInput, beatInput, beatInput]
      rfl (by decide) (by decide)).1⟩

/-- C6: a call of `checkHeartRate` in which no beat is detected returns the current
`heartRate` and changes nothing: the ring buffer, the write index and `lastBeat` (and
every other field) are as before. -/
theorem checkHeartRate_noBeat_frame (s : State) (now : Int) :
    (checkHeartRate false now s).1 = s.heartRate ∧
    (checkHeartRate false now s).2.rates = s.rates ∧
    (checkHeartRate false now s).2.rateIndex = s.rateIndex ∧
    (checkHeartRate false now s).2.lastBeat = s.lastBeat ∧
    (checkHeartRate false now s).2 = s := by
  rw [checkHeartRate_noBeat]
  exact ⟨rfl, rfl, rfl, rfl, rfl⟩

/-- C7: with an IR reading below 50000 one `loop()` call renders the "No finger"
placeholder and leaves `spo2`, `heartRate`, `breathRate`, `criticalBreathCounter`, the
ring buffer, the write index and `lastBeat` at their values before the call. -/
theorem loop_noFinger_frame (inp : Input) (s : State) (h : inp.ir < 50000) :
    (loop inp s).screen = some ⟨.str "No finger", .str "", .str "", .str ""⟩ ∧
    (loop inp s).spo2 = s.spo2 ∧
    (loop inp s).heartRate = s.heartRate ∧
    (loop inp s).breathRate = s.breathRate ∧
    (loop inp s).criticalBreathCounter = s.criticalBreathCounter ∧
    (loop inp s).rates = s.rates ∧
    (loop inp s).rateIndex = s.rateIndex ∧
    (loop inp s).lastBeat = s.lastBeat := by
  rw [loop_noFinger inp s h]
  exact ⟨rfl, rfl, rfl, rfl, rfl, rfl, rfl, rfl⟩

theorem loop_noFinger_frame_witness :
    noFingerInput.ir < 50000 ∧
    (loop noFingerInput initState).screen = some ⟨.str "No finger", .str "", .str "", .str ""⟩ :=
  ⟨by decide, (loop_noFinger_frame noFingerInput initState (by decide)).1⟩

/-- C8, as stated, fails: after a monitoring iteration that fired the alarm, an iteration
with an IR reading below 50000 leaves the buzzer HIGH. -/
theorem loop_noFinger_buzzer_counterexample :
    50000 ≤ hypoxicInput.ir ∧ noFingerInput.ir < 50000 ∧
    (loop hypoxicInput initState).buzzer = true ∧
    (loop noFingerInput (loop hypoxicInput initState)).buzzer = true := by
  have hb : (loop hypoxicInput initState).buzzer = true := by
    rw [loop_buzzer hypoxicInput initState (by decide), decide_eq_true_iff]
    left
    rw [loop_spo2 hypoxicInput initState (by decide)]
    simp only [hypoxicInput, Int.cast_ofNat]
    rw [spo2_value_one]
    norm_num
  refine ⟨by decide, by decide, hb, ?_⟩
  rw [loop_noFinger noFingerInput _ (by decide), displayData_buzzer]
  exact hb

/-- C8, amended: an iteration with an IR reading below 50000 makes no alarm decision and
leaves the buzzer output as it was before the iteration; in particular the buzzer is LOW
afterwards whenever it was LOW before. -/
theorem loop_noFinger_buzzer (inp : Input) (s : State) (h : inp.ir < 50000) :
    (loop inp s).buzzer = s.buzzer ∧ (loop inp s).debug = s.debug ∧
    (s.buzzer = false → (loop inp s).buzzer = false) := by
  rw [loop_noFinger inp s h]
  exact ⟨rfl, rfl, fun hb => hb⟩

theorem loop_noFinger_buzzer_witness :
    noFingerInput.ir < 50000 ∧
    (loop noFingerInput initState).buzzer = initState.buzzer :=
  ⟨by decide, (loop_noFinger_buzzer noFingerInput initState (by decide)).1⟩

/-- C9: for a raw piezo reading `x` in `[0, 1023]`, `calculateBreathRate x` lies in
`[10, 30]`; it maps 0 to 10, 1023 to 30, and 511 to a value within 1 of 20. -/
theorem calculateBreathRate_range (x : Int) (h0 : 0 ≤ x) (h1 : x ≤ 1023) :
    10 ≤ calculateBreathRate x ∧ calculateBreathRate x ≤ 30 ∧
    calculateBreathRate 0 = 10 ∧ calculateBreathRate 1023 = 30 ∧
    |calculateBreathRate 511 - 20| ≤ 1 := by
  refine ⟨?_, ?_, by decide, by decide, by decide⟩
  · rw [calculateBreathRate_eq x h0]
    omega
  · rw [calculateBreathRate_eq x h0]
    omega

theorem calculateBreathRate_range_witness :
    (0 : Int) ≤ 700 ∧ (700 : Int) ≤ 1023 ∧
    10 ≤ calculateBreathRate 700 ∧ calculateBreathRate 700 ≤ 30 :=
  ⟨by decide, by decide,
    (calculateBreathRate_range 700 (by decide) (by decide)).1,
    (calculateBreathRate_range 700 (by decide) (by decide)).2.1⟩

/-- C10: `calculateBreathRate` is monotonic on `[0, 1023]`: for raw readings `x ≤ y`, both
in `[0, 1023]`, `calculateBreathRate x ≤ calculateBreathRate y`. -/
theorem calculateBreathRate_mono (x y : Int) (hx : 0 ≤ x ∧ x ≤ 1023) (hy : 0 ≤ y ∧ y ≤ 1023)
    (hxy : x ≤ y) : calculateBreathRate x ≤ calculateBreathRate y := by
  rw [calculateBreathRate_eq x hx.1, calculateBreathRate_eq y hy.1]
  omega

theorem calculateBreathRate_mono_witness :
    ((0 : Int) ≤ 511 ∧ (511 : Int) ≤ 1023) ∧ ((0 : Int) ≤ 512 ∧ (512 : Int) ≤ 1023) ∧
    (511 : Int) ≤ 512 ∧ calculateBreathRate 511 ≤ calculateBreathRate 512 :=
  ⟨by decide, by decide, by decide,
    calculateBreathRate_mono 511 512 (by decide) (by decide) (by decide)⟩

/-! ## The ring buffer over four beats -/

theorem tmod_succ_fin (i : Fin 4) :
    ((i.val : Int) + 1).tmod 4 = ((i + 1 : Fin 4).val : Int) := by
  fin_cases i <;> decide

theorem setRate_fin (rates : Fin 4 → Int) (i j : Fin 4) (v : Int) :
    setRate rates (i.val : Int) v j = if j = i then v else rates j := by
  unfold setRate
  by_cases h : j = i
  · simp [h]
  · have : ¬ ((j.val : Int) = (i.val : Int)) := fun hc => h (Fin.ext (by exact_mod_cast hc))
    simp [h, this]

/-- Four writes at consecutive indices replace every slot. -/
theorem setRate_four (rates : Fin 4 → Int) (i : Fin 4) (b1 b2 b3 b4 : Int) :
    setRate (setRate (setRate (setRate rates (i.val : Int) b1) ((i + 1 : Fin 4).val : Int) b2)
      ((i + 1 + 1 : Fin 4).val : Int) b3) ((i + 1 + 1 + 1 : Fin 4).val : Int) b4 =
    fun j => if j = i + 3 then b4 else if j = i + 2 then b3 else if j = i + 1 then b2 else b1 := by
  funext j
  simp only [setRate_fin]
  fin_cases i <;> fin_cases j <;> simp

theorem ring_four_read (i : Fin 4) (b1 b2 b3 b4 : Int) :
    let r : Fin 4 → Int :=
      fun j => if j = i + 3 then b4 else if j = i + 2 then b3 else if j = i + 1 then b2 else b1
    r i = b1 ∧ r (i + 1) = b2 ∧ r (i + 2) = b3 ∧ r (i + 3) = b4 ∧
      sumRates r = b1 + b2 + b3 + b4 := by
  intro r
  refine ⟨?_, ?_, ?_, ?_, ?_⟩
  · fin_cases i <;> simp [r]
  · fin_cases i <;> simp [r]
  · fin_cases i <;> simp [r]
  · fin_cases i <;> simp [r]
  · rw [sumRates_eq]
    fin_cases i <;> simp [r] <;> ring

/-- The state after a detected beat, with the write index on slot `i`. -/
theorem checkHeartRate_beat_fin (now : Int) (s : State) (i : Fin 4)
    (hi : s.rateIndex = (i.val : Int)) :
    (checkHeartRate true now s).2.rates =
      setRate s.rates (i.val : Int) (constrain (rawBpm (now - s.lastBeat)) 30 180) ∧
    (checkHeartRate true now s).2.rateIndex = ((i + 1 : Fin 4).val : Int) ∧
    (checkHeartRate true now s).2.lastBeat = now ∧
    (checkHeartRate true now s).1 = (sumRates (checkHeartRate true now s).2.rates).tdiv 4 := by
  refine ⟨?_, ?_, ?_, ?_⟩ <;> simp [checkHeartRate_beat, hi, tmod_succ_fin]

/-- C2: from any estimator state with the write index on a slot `i` of the buffer, four
consecutive detected beats at times `t1..t4`, whose clamped bpm values are `b1..b4`, leave
the ring buffer holding exactly `b1..b4` (in slots `i, i+1, i+2, i+3` modulo 4, so every
older value has been overwritten, oldest first), each in `[30, 180]`, and the fourth call
returns `floor((b1 + b2 + b3 + b4) / 4)`. -/
theorem checkHeartRate_four_beats (s : State) (i : Fin 4) (hi : s.rateIndex = (i.val : Int))
    (t1 t2 t3 t4 : Int) :
    let b1 := constrain (rawBpm (t1 - s.lastBeat)) 30 180
    let b2 := constrain (rawBpm (t2 - t1)) 30 180
    let b3 := constrain (rawBpm (t3 - t2)) 30 180
    let b4 := constrain (rawBpm (t4 - t3)) 30 180
    let r1 := checkHeartRate true t1 s
    let r2 := checkHeartRate true t2 { r1.2 with heartRate := r1.1 }
    let r3 := checkHeartRate true t3 { r2.2 with heartRate := r2.1 }
    let r4 := checkHeartRate true t4 { r3.2 with heartRate := r3.1 }
    ((30 ≤ b1 ∧ b1 ≤ 180) ∧ (30 ≤ b2 ∧ b2 ≤ 180) ∧ (30 ≤ b3 ∧ b3 ≤ 180) ∧
      (30 ≤ b4 ∧ b4 ≤ 180)) ∧
    r4.2.rates i = b1 ∧ r4.2.rates (i + 1) = b2 ∧ r4.2.rates (i + 2) = b3 ∧
    r4.2.rates (i + 3) = b4 ∧
    r4.1 = (b1 + b2 + b3 + b4) / 4 ∧
    r4.2.rateIndex = s.rateIndex := by
  intro b1 b2 b3 b4 r1 r2 r3 r4
  have hb1 := constrain_bounds (rawBpm (t1 - s.lastBeat)) 30 180 (by norm_num)
  have hb2 := constrain_bounds (rawBpm (t2 - t1)) 30 180 (by norm_num)
  have hb3 := constrain_bounds (rawBpm (t3 - t2)) 30 180 (by norm_num)
  have hb4 := constrain_bounds (rawBpm (t4 - t3)) 30 180 (by norm_num)
  obtain ⟨e1, x1, l1, -⟩ := checkHeartRate_beat_fin t1 s i hi
  have x1 : r1.2.rateIndex = ((i + 1 : Fin 4).val : Int) := x1
  have l1 : r1.2.lastBeat = t1 := l1
  have e1 : r1.2.rates = setRate s.rates (i.val : Int) b1 := e1
  obtain ⟨e2, x2, l2, -⟩ :=
    checkHeartRate_beat_fin t2 { r1.2 with heartRate := r1.1 } (i + 1) x1
  have x2 : r2.2.rateIndex = ((i + 1 + 1 : Fin 4).val : Int) := x2
  have l2 : r2.2.lastBeat = t2 := l2
  have e2 : r2.2.rates = setRate r1.2.rates ((i + 1 : Fin 4).val : Int)
      (constrain (rawBpm (t2 - r1.2.lastBeat)) 30 180) := e2
  obtain ⟨e3, x3, l3, -⟩ :=
    checkHeartRate_beat_fin t3 { r2.2 with heartRate := r2.1 } (i + 1 + 1) x2
  have x3 : r3.2.rateIndex = ((i + 1 + 1 + 1 : Fin 4).val : Int) := x3
  have l3 : r3.2.lastBeat = t3 := l3
  have e3 : r3.2.rates = setRate r2.2.rates ((i + 1 + 1 : Fin 4).val : Int)
      (constrain (rawBpm (t3 - r2.2.lastBeat)) 30 180) := e3
  obtain ⟨e4, x4, -, v4⟩ :=
    checkHeartRate_beat_fin t4 { r3.2 with heartRate := r3.1 } (i + 1 + 1 + 1) x3
  have e4 : r4.2.rates = setRate r3.2.rates ((i + 1 + 1 + 1 : Fin 4).val : Int)
      (constrain (rawBpm (t4 - r3.2.lastBeat)) 30 180) := e4
  have hr : r4.2.rates =
      fun j => if j = i + 3 then b4 else if j = i + 2 then b3 else if j = i + 1 then b2
        else b1 := by
    rw [← setRate_four s.rates i b1 b2 b3 b4, e4, e3, e2, e1, l3, l2, l1]
  obtain ⟨g1, g2, g3, g4, gs⟩ := ring_four_read i b1 b2 b3 b4
  refine ⟨⟨hb1, hb2, hb3, hb4⟩, ?_, ?_, ?_, ?_, ?_, ?_⟩
  · rw [hr]; exact g1
  · rw [hr]; exact g2
  · rw [hr]; exact g3
  · rw [hr]; exact g4
  · have hv : r4.1 = (sumRates r4.2.rates).tdiv 4 := v4
    rw [hv, hr, gs]
    exact Int.tdiv_eq_ediv (by have := hb1.1; have := hb2.1; have := hb3.1; have := hb4.1
                               simp only [b1, b2, b3, b4]; omega) (by norm_num)
  · have : r4.2.rateIndex = ((i + 1 + 1 + 1 + 1 : Fin 4).val : Int) := x4
    rw [this, hi]
    fin_cases i <;> rfl

theorem checkHeartRate_four_beats_witness :
    initState.rateIndex = (((0 : Fin 4)).val : Int) ∧
    fourBeats.1 =
      (constrain (rawBpm (500 - initState.lastBeat)) 30 180 +
        constrain (rawBpm (1000 - 500)) 30 180 + constrain (rawBpm (1500 - 1000)) 30 180 +
        constrain (rawBpm (2000 - 1500)) 30 180) / 4 :=
  ⟨by decide, (checkHeartRate_four_beats initState 0 (by decide) 500 1000 1500 2000).2.2.2.2.2.1⟩

/-! ## The heart rate is the mean of the buffer -/

/-- A call of `checkHeartRate` keeps "`heartRate` is the truncated mean of the buffer":
the value it returns is the truncated mean of the buffer it leaves. -/
theorem checkHeartRate_mean (beat : Bool) (now : Int) (s : State)
    (h : s.heartRate = (sumRates s.rates).tdiv 4) :
    (checkHeartRate beat now s).1 = (sumRates (checkHeartRate beat now s).2.rates).tdiv 4 := by
  cases beat
  · rw [checkHeartRate_noBeat]
    exact h
  · rw [checkHeartRate_beat]

theorem loop_mean (inp : Input) (s : State)
    (h : s.heartRate = (sumRates s.rates).tdiv 4) :
    (loop inp s).heartRate = (sumRates (loop inp s).rates).tdiv 4 := by
  by_cases hir : inp.ir < 50000
  · rw [loop_noFinger inp s hir]
    exact h
  · have hm : 50000 ≤ inp.ir := not_lt.mp hir
    rw [loop_heartRate inp s hm, (loop_estimator inp s hm).1]
    exact checkHeartRate_mean inp.beat inp.now s h

theorem runLoop_mean (inps : List Input) (s : State)
    (h : s.heartRate = (sumRates s.rates).tdiv 4) :
    (runLoop inps s).heartRate = (sumRates (runLoop inps s).rates).tdiv 4 := by
  induction inps generalizing s with
  | nil => exact h
  | cons inp rest ih =>
    rw [runLoop_cons]
    exact ih (loop inp s) (loop_mean inp s h)

theorem initState_mean : initState.heartRate = (sumRates initState.rates).tdiv 4 := by
  decide

/-- C5: in every state reached from the initial state by a sequence of `loop()` calls,
`heartRate` is the truncated mean `(rates[0] + rates[1] + rates[2] + rates[3]) / 4` of the
ring buffer; and every call of `checkHeartRate` made from such a state (whatever `spo2`
the caller has just stored), with or without a beat, returns the truncated mean of the
four slots of the buffer as the call leaves it. -/
theorem heartRate_eq_mean (inps : List Input) :
    (runLoop inps initState).heartRate =
      ((runLoop inps initState).rates 0 + (runLoop inps initState).rates 1 +
        (runLoop inps initState).rates 2 + (runLoop inps initState).rates 3).tdiv 4 ∧
    ∀ (x : ℚ) (beat : Bool) (now : Int),
      (checkHeartRate beat now { runLoop inps initState with spo2 := x }).1 =
        ((checkHeartRate beat now { runLoop inps initState with spo2 := x }).2.rates 0 +
          (checkHeartRate beat now { runLoop inps initState with spo2 := x }).2.rates 1 +
          (checkHeartRate beat now { runLoop inps initState with spo2 := x }).2.rates 2 +
          (checkHeartRate beat now { runLoop inps initState with spo2 := x }).2.rates 3).tdiv
          4 := by
  have hinv := runLoop_mean inps initState initState_mean
  refine ⟨?_, ?_⟩
  · rw [← sumRates_eq]
    exact hinv
  · intro x beat now
    rw [← sumRates_eq]
    exact checkHeartRate_mean beat now { runLoop inps initState with spo2 := x } hinv

/-! ## SpO2 -/

theorem sumRates_setRate_zero (b : Int) :
    sumRates (setRate (fun _ => 0) (((0 : Fin 4)).val : Int) b) = b := by
  rw [sumRates_eq]
  simp only [setRate_fin]
  simp

theorem sumRates_setRate_one (b c : Int) :
    sumRates (setRate (setRate (fun _ => 0) (((0 : Fin 4)).val : Int) b)
      (((0 + 1 : Fin 4)).val : Int) c) = b + c := by
  rw [sumRates_eq]
  simp only [setRate_fin]
  simp

theorem sumRates_setRate_two (b c d : Int) :
    sumRates (setRate (setRate (setRate (fun _ => 0) (((0 : Fin 4)).val : Int) b)
      (((0 + 1 : Fin 4)).val : Int) c) (((0 + 1 + 1 : Fin 4)).val : Int) d) = b + c + d := by
  rw [sumRates_eq]
  simp only [setRate_fin]
  simp

/-- The values returned by the first three beat calls from the initial state. -/
theorem warmup_values (t1 t2 t3 : Int) :
    let c1 := constrain (rawBpm (t1 - initState.lastBeat)) 30 180
    let c2 := constrain (rawBpm (t2 - t1)) 30 180
    let c3 := constrain (rawBpm (t3 - t2)) 30 180
    let r1 := checkHeartRate true t1 initState
    let r2 := checkHeartRate true t2 { r1.2 with heartRate := r1.1 }
    let r3 := checkHeartRate true t3 { r2.2 with heartRate := r2.1 }
    r1.1 = c1 / 4 ∧ r2.1 = (c1 + c2) / 4 ∧ r3.1 = (c1 + c2 + c3) / 4 ∧
    r1.1 < c1 ∧ r2.1 < (c1 + c2) / 2 ∧ r3.1 < (c1 + c2 + c3) / 3 := by
  intro c1 c2 c3 r1 r2 r3
  have hb1 : 30 ≤ c1 ∧ c1 ≤ 180 := constrain_bounds _ 30 180 (by norm_num)
  have hb2 : 30 ≤ c2 ∧ c2 ≤ 180 := constrain_bounds _ 30 180 (by norm_num)
  have hb3 : 30 ≤ c3 ∧ c3 ≤ 180 := constrain_bounds _ 30 180 (by norm_num)
  obtain ⟨e1, x1, l1, v1⟩ := checkHeartRate_beat_fin t1 initState 0 (by decide)
  have x1 : r1.2.rateIndex = (((0 + 1 : Fin 4)).val : Int) := x1
  have l1 : r1.2.lastBeat = t1 := l1
  have e1 : r1.2.rates = setRate (fun _ => 0) (((0 : Fin 4)).val : Int) c1 := e1
  have v1 : r1.1 = (sumRates r1.2.rates).tdiv 4 := v1
  obtain ⟨e2, x2, l2, v2⟩ :=
    checkHeartRate_beat_fin t2 { r1.2 with heartRate := r1.1 } (0 + 1) x1
  have x2 : r2.2.rateIndex = (((0 + 1 + 1 : Fin 4)).val : Int) := x2
  have l2 : r2.2.lastBeat = t2 := l2
  have e2 : r2.2.rates = setRate r1.2.rates (((0 + 1 : Fin 4)).val : Int)
      (constrain (rawBpm (t2 - r1.2.lastBeat)) 30 180) := e2
  have v2 : r2.1 = (sumRates r2.2.rates).tdiv 4 := v2
  obtain ⟨e3, -, -, v3⟩ :=
    checkHeartRate_beat_fin t3 { r2.2 with heartRate := r2.1 } (0 + 1 + 1) x2
  have e3 : r3.2.rates = setRate r2.2.rates (((0 + 1 + 1 : Fin 4)).val : Int)
      (constrain (rawBpm (t3 - r2.2.lastBeat)) 30 180) := e3
  have v3 : r3.1 = (sumRates r3.2.rates).tdiv 4 := v3
  have w1 : r1.1 = c1 / 4 := by
    rw [v1, e1, sumRates_setRate_zero]
    exact Int.tdiv_eq_ediv (by omega) (by norm_num)
  have w2 : r2.1 = (c1 + c2) / 4 := by
    rw [v2, e2, e1, l1, sumRates_setRate_one]
    exact Int.tdiv_eq_ediv (by omega) (by norm_num)
  have w3 : r3.1 = (c1 + c2 + c3) / 4 := by
    rw [v3, e3, e2, e1, l2, l1, sumRates_setRate_two]
    exact Int.tdiv_eq_ediv (by omega) (by norm_num)
  refine ⟨w1, w2, w3, ?_, ?_, ?_⟩
  · rw [w1]; omega
  · rw [w2]; omega
  · rw [w3]; omega

/-- C12: warm-up.  From the initial estimator state (all slots 0, write index 0), after
`m` detected beats with clamped values `c1..cm`, for `m = 1, 2, 3`, `checkHeartRate`
returns `floor((c1 + ... + cm) / 4)`: the mean over all four slots, the still-zero ones
included, which is below the mean of the `m` accepted values. -/
theorem checkHeartRate_warmup (t1 t2 t3 : Int) :
    (checkHeartRate true t1 initState).1 =
      constrain (rawBpm (t1 - initState.lastBeat)) 30 180 / 4 ∧
    (let c1 := constrain (rawBpm (t1 - initState.lastBeat)) 30 180
     let c2 := constrain (rawBpm (t2 - t1)) 30 180
     let c3 := constrain (rawBpm (t3 - t2)) 30 180
     let r1 := checkHeartRate true t1 initState
     let r2 := checkHeartRate true t2 { r1.2 with heartRate := r1.1 }
     let r3 := checkHeartRate true t3 { r2.2 with heartRate := r2.1 }
     r2.1 = (c1 + c2) / 4 ∧ r3.1 = (c1 + c2 + c3) / 4 ∧
     r1.1 < c1 ∧ r2.1 < (c1 + c2) / 2 ∧ r3.1 < (c1 + c2 + c3) / 3) :=
  ⟨(warmup_values t1 t2 t3).1, (warmup_values t1 t2 t3).2⟩

/-- C13, as stated, fails: with `lastBeat = 0` and `now = 500` the raw bpm is 120, not
below 30, and the value stored is 120, not 30. -/
theorem checkHeartRate_coldStart_counterexample :
    initState.lastBeat = 0 ∧ (0 : Int) < 500 ∧
    rawBpm (500 - initState.lastBeat) = 120 ∧
    ¬ rawBpm (500 - initState.lastBeat) < 30 ∧
    (checkHeartRate true 500 initState).2.rates 0 = 120 ∧
    (checkHeartRate true 500 initState).2.rates 0 ≠ 30 := by
  have hraw : rawBpm (500 - initState.lastBeat) = 120 := by
    rw [rawBpm_eq_tdiv]
    decide
  have hst : (checkHeartRate true 500 initState).2.rates 0 = 120 := by
    rw [(checkHeartRate_beat_fin 500 initState 0 (by decide)).1, setRate_fin, if_pos rfl, hraw]
    decide
  refine ⟨rfl, by decide, hraw, ?_, hst, ?_⟩
  · rw [hraw]; decide
  · rw [hst]; decide

/-- C13, amended: on a detected beat with `lastBeat = 0` and clock value `now > 0`, `delta`
equals `now`; when `now > 2000` the raw bpm is below 30 and the value stored is the lower
clamp bound 30; when `now ≤ 2000` the raw bpm `60000 / now` is at least 30 and the value
stored is that quotient, capped at 180. -/
theorem checkHeartRate_coldStart (s : State) (i : Fin 4) (hi : s.rateIndex = (i.val : Int))
    (h0 : s.lastBeat = 0) (now : Int) (hnow : 0 < now) :
    now - s.lastBeat = now ∧
    (2000 < now →
      rawBpm (now - s.lastBeat) < 30 ∧ (checkHeartRate true now s).2.rates i = 30) ∧
    (now ≤ 2000 →
      30 ≤ rawBpm (now - s.lastBeat) ∧
      (checkHeartRate true now s).2.rates i = min (60000 / now) 180) := by
  have hd : now - s.lastBeat = now := by rw [h0, sub_zero]
  have hraw : rawBpm (now - s.lastBeat) = 60000 / now := by
    rw [hd, rawBpm_eq_tdiv]
    exact Int.tdiv_eq_ediv (by norm_num) hnow.le
  have hst : (checkHeartRate true now s).2.rates i =
      constrain (rawBpm (now - s.lastBeat)) 30 180 := by
    rw [(checkHeartRate_beat_fin now s i hi).1, setRate_fin, if_pos rfl]
  refine ⟨hd, ?_, ?_⟩
  · intro h
    have hlt : 60000 / now < 30 := by
      apply Int.ediv_lt_of_lt_mul hnow
      omega
    refine ⟨by rw [hraw]; exact hlt, ?_⟩
    rw [hst, hraw, constrain, if_pos hlt]
  · intro h
    have hge : 30 ≤ 60000 / now := by
      apply Int.le_ediv_of_mul_le hnow
      omega
    refine ⟨by rw [hraw]; exact hge, ?_⟩
    rw [hst, hraw, constrain, if_neg (by omega)]
    split_ifs with hc
    · rw [min_eq_right (by omega)]
    · rw [min_eq_left (by omega)]

theorem checkHeartRate_coldStart_witness :
    initState.rateIndex = (((0 : Fin 4)).val : Int) ∧ initState.lastBeat = 0 ∧
    (0 : Int) < 5000 ∧
    ((2000 : Int) < 5000 →
      rawBpm (5000 - initState.lastBeat) < 30 ∧
      (checkHeartRate true 5000 initState).2.rates 0 = 30) :=
  ⟨by decide, rfl, by decide,
    (checkHeartRate_coldStart initState 0 (by decide) rfl 5000 (by decide)).2.1⟩

/-! ## The write index -/

theorem checkHeartRate_rateIndex (beat : Bool) (now : Int) (s : State)
    (h : 0 ≤ s.rateIndex ∧ s.rateIndex < 4) :
    (checkHeartRate beat now s).2.rateIndex =
      (if beat then (s.rateIndex + 1) % 4 else s.rateIndex) ∧
    0 ≤ (checkHeartRate beat now s).2.rateIndex ∧
    (checkHeartRate beat now s).2.rateIndex < 4 := by
  cases beat
  · rw [checkHeartRate_noBeat]
    exact ⟨rfl, h.1, h.2⟩
  · have e : (checkHeartRate true now s).2.rateIndex = (s.rateIndex + 1) % 4 := by
      rw [checkHeartRate_beat]
      exact Int.tmod_eq_emod (by omega) (by norm_num)
    refine ⟨by simpa using e, ?_, ?_⟩
    · rw [e]; omega
    · rw [e]; omega

theorem runCheckHeartRate_rateIndex (calls : List (Bool × Int)) (s : State)
    (h : 0 ≤ s.rateIndex ∧ s.rateIndex < 4) :
    0 ≤ (runCheckHeartRate calls s).rateIndex ∧ (runCheckHeartRate calls s).rateIndex < 4 := by
  induction calls generalizing s with
  | nil => exact h
  | cons c rest ih =>
    exact ih _ (checkHeartRate_rateIndex c.1 c.2 s h).2

theorem loop_rateIndex (inp : Input) (s : State) (h : 0 ≤ s.rateIndex ∧ s.rateIndex < 4) :
    0 ≤ (loop inp s).rateIndex ∧ (loop inp s).rateIndex < 4 := by
  by_cases hir : inp.ir < 50000
  · rw [loop_noFinger inp s hir]
    exact h
  · rw [(loop_estimator inp s (not_lt.mp hir)).2.1]
    exact (checkHeartRate_rateIndex inp.beat inp.now s h).2

theorem runLoop_rateIndex (inps : List Input) (s : State)
    (h : 0 ≤ s.rateIndex ∧ s.rateIndex < 4) :
    0 ≤ (runLoop inps s).rateIndex ∧ (runLoop inps s).rateIndex < 4 := by
  induction inps generalizing s with
  | nil => exact h
  | cons inp rest ih =>
    rw [runLoop_cons]
    exact ih _ (loop_rateIndex inp s h)

/-- C14: in every state reached from the initial state by a sequence of `checkHeartRate`
calls (and likewise by a sequence of `loop()` calls) the write index is in `0..3`, so the
next write is inside the four slots; from such a state a call with a beat moves the index
to `(rateIndex + 1) mod 4` and a call without a beat leaves it unchanged. -/
theorem rateIndex_in_bounds (calls : List (Bool × Int)) (inps : List Input) (now : Int) :
    (0 ≤ (runCheckHeartRate calls initState).rateIndex ∧
      (runCheckHeartRate calls initState).rateIndex < 4) ∧
    (checkHeartRate true now (runCheckHeartRate calls initState)).2.rateIndex =
      ((runCheckHeartRate calls initState).rateIndex + 1) % 4 ∧
    (checkHeartRate false now (runCheckHeartRate calls initState)).2.rateIndex =
      (runCheckHeartRate calls initState).rateIndex ∧
    (0 ≤ (runLoop inps initState).rateIndex ∧ (runLoop inps initState).rateIndex < 4) ∧
    (checkHeartRate true now (runLoop inps initState)).2.rateIndex =
      ((runLoop inps initState).rateIndex + 1) % 4 ∧
    (checkHeartRate false now (runLoop inps initState)).2.rateIndex =
      (runLoop inps initState).rateIndex := by
  have h0 : 0 ≤ initState.rateIndex ∧ initState.rateIndex < 4 := by decide
  have hc := runCheckHeartRate_rateIndex calls initState h0
  have hl := runLoop_rateIndex inps initState h0
  refine ⟨hc, ?_, ?_, hl, ?_, ?_⟩
  · simpa using (checkHeartRate_rateIndex true now _ hc).1
  · simpa using (checkHeartRate_rateIndex false now _ hc).1
  · simpa using (checkHeartRate_rateIndex true now _ hl).1
  · simpa using (checkHeartRate_rateIndex false now _ hl).1

/-! ## Range of the buffer slots and of the heart rate -/

theorem checkHeartRate_slotsWritten (beat : Bool) (now : Int) (k : Nat) (s : State)
    (h : SlotsWritten k s) :
    SlotsWritten (k + (if beat then 1 else 0)) (checkHeartRate beat now s).2 := by
  cases beat
  · rw [checkHeartRate_noBeat]
    simpa using h
  · obtain ⟨hidx, hs⟩ := h
    have hb := constrain_bounds (rawBpm (now - s.lastBeat)) 30 180 (by norm_num)
    rw [checkHeartRate_beat]
    simp only [if_true]
    refine ⟨?_, ?_⟩
    · show (s.rateIndex + 1).tmod 4 = (((k + 1) % 4 : Nat) : Int)
      rw [hidx, Int.tmod_eq_emod (by omega) (by norm_num)]
      omega
    · intro j
      show (_ → 30 ≤ setRate s.rates s.rateIndex _ j ∧ setRate s.rates s.rateIndex _ j ≤ 180) ∧
        (setRate s.rates s.rateIndex _ j = 0 ∨
          (30 ≤ setRate s.rates s.rateIndex _ j ∧ setRate s.rates s.rateIndex _ j ≤ 180))
      unfold setRate
      by_cases hj : (j.val : Int) = s.rateIndex
      · rw [if_pos hj]
        exact ⟨fun _ => hb, Or.inr hb⟩
      · rw [if_neg hj]
        refine ⟨fun hlt => (hs j).1 ?_, (hs j).2⟩
        have hj4 := j.isLt
        rw [hidx] at hj
        omega

theorem loop_slotsWritten (inp : Input) (k : Nat) (s : State) (h : SlotsWritten k s) :
    SlotsWritten (k + beatCount [inp]) (loop inp s) := by
  by_cases hir : inp.ir < 50000
  · have hc : beatCount [inp] = 0 := by
      simp [beatCount, List.countP_cons, hir]
    rw [loop_noFinger inp s hir, hc]
    exact h
  · have hm : 50000 ≤ inp.ir := not_lt.mp hir
    have hc : beatCount [inp] = (if inp.beat then 1 else 0) := by
      simp [beatCount, List.countP_cons, hm]
    have hstep := checkHeartRate_slotsWritten inp.beat inp.now k s h
    obtain ⟨e1, e2, -⟩ := loop_estimator inp s hm
    rw [hc]
    refine ⟨?_, ?_⟩
    · rw [e2]; exact hstep.1
    · rw [e1]; exact hstep.2

theorem beatCount_cons (inp : Input) (rest : List Input) :
    beatCount (inp :: rest) = beatCount [inp] + beatCount rest := by
  simp [beatCount, List.countP_cons, Nat.add_comm]

theorem runLoop_slotsWritten (inps : List Input) (k : Nat) (s : State)
    (h : SlotsWritten k s) : SlotsWritten (k + beatCount inps) (runLoop inps s) := by
  induction inps generalizing k s with
  | nil => simpa [beatCount, runLoop_nil] using h
  | cons inp rest ih =>
    rw [runLoop_cons, beatCount_cons, ← Nat.add_assoc]
    exact ih _ _ (loop_slotsWritten inp k s h)

theorem initState_slotsWritten : SlotsWritten 0 initState := by
  refine ⟨by decide, fun j => ⟨fun h => absurd h (Nat.not_lt_zero _), Or.inl rfl⟩⟩

/-- The truncated mean of four slots that each hold 0 or a value in `[30, 180]`. -/
theorem mean_bounds (k : Nat) (s : State) (h : SlotsWritten k s) :
    0 ≤ (sumRates s.rates).tdiv 4 ∧ (sumRates s.rates).tdiv 4 ≤ 180 ∧
    (4 ≤ k → 30 ≤ (sumRates s.rates).tdiv 4) := by
  obtain ⟨-, hs⟩ := h
  have h0 := hs 0
  have h1 := hs 1
  have h2 := hs 2
  have h3 := hs 3
  have hn : 0 ≤ sumRates s.rates := by
    rw [sumRates_eq]
    omega
  rw [Int.tdiv_eq_ediv hn (by norm_num), sumRates_eq]
  refine ⟨by omega, by omega, ?_⟩
  intro hk
  have g0 := h0.1 (by show 0 < k; omega)
  have g1 := h1.1 (by show 1 < k; omega)
  have g2 := h2.1 (by show 2 < k; omega)
  have g3 := h3.1 (by show 3 < k; omega)
  omega

/-- C16: in every state reached from the initial state by `loop()` calls every slot of the
ring buffer holds 0 or a value in `[30, 180]`; `heartRate` and every value
`checkHeartRate` returns from such a state are in `[0, 180]`; and once at least 4 beats
have been detected every slot is in `[30, 180]` and so are `heartRate` and every value
`checkHeartRate` returns. -/
theorem heartRate_range (inps : List Input) :
    (∀ j : Fin 4, (runLoop inps initState).rates j = 0 ∨
      (30 ≤ (runLoop inps initState).rates j ∧ (runLoop inps initState).rates j ≤ 180)) ∧
    (0 ≤ (runLoop inps initState).heartRate ∧ (runLoop inps initState).heartRate ≤ 180) ∧
    (∀ (x : ℚ) (beat : Bool) (now : Int),
      0 ≤ (checkHeartRate beat now { runLoop inps initState with spo2 := x }).1 ∧
      (checkHeartRate beat now { runLoop inps initState with spo2 := x }).1 ≤ 180) ∧
    (4 ≤ beatCount inps →
      (∀ j : Fin 4, 30 ≤ (runLoop inps initState).rates j ∧
        (runLoop inps initState).rates j ≤ 180) ∧
      30 ≤ (runLoop inps initState).heartRate ∧
      ∀ (x : ℚ) (beat : Bool) (now : Int),
        30 ≤ (checkHeartRate beat now { runLoop inps initState with spo2 := x }).1) := by
  have hs : SlotsWritten (beatCount inps) (runLoop inps initState) := by
    simpa using runLoop_slotsWritten inps 0 initState initState_slotsWritten
  have hm := runLoop_mean inps initState initState_mean
  have hb := mean_bounds _ _ hs
  have hcall : ∀ (x : ℚ) (beat : Bool) (now : Int),
      0 ≤ (checkHeartRate beat now { runLoop inps initState with spo2 := x }).1 ∧
      (checkHeartRate beat now { runLoop inps initState with spo2 := x }).1 ≤ 180 ∧
      (4 ≤ beatCount inps →
        30 ≤ (checkHeartRate beat now { runLoop inps initState with spo2 := x }).1) := by
    intro x beat now
    have hs2 : SlotsWritten (beatCount inps) { runLoop inps initState with spo2 := x } := hs
    have hstep := checkHeartRate_slotsWritten beat now _ _ hs2
    have hb2 := mean_bounds _ _ hstep
    rw [checkHeartRate_mean beat now { runLoop inps initState with spo2 := x } hm]
    exact ⟨hb2.1, hb2.2.1, fun h4 => hb2.2.2 (by omega)⟩
  refine ⟨fun j => (hs.2 j).2, ?_, fun x beat now => ⟨(hcall x beat now).1,
    (hcall x beat now).2.1⟩, ?_⟩
  · rw [hm]
    exact ⟨hb.1, hb.2.1⟩
  · intro h4
    refine ⟨fun j => (hs.2 j).1 (by have := j.isLt; omega), ?_,
      fun x beat now => (hcall x beat now).2.2 h4⟩
    rw [hm]
    exact hb.2.2 h4

/-! ## The alarm over a critical streak -/

/-- After a non-empty run of monitoring iterations the buzzer shows the alarm condition
of the last one. -/
theorem runLoop_buzzer (inps : List Input) (s : State) (hne : inps ≠ [])
    (h : ∀ inp ∈ inps, 50000 ≤ inp.ir) :
    (runLoop inps s).buzzer =
      decide ((runLoop inps s).spo2 < 95 ∨ (runLoop inps s).heartRate > 150 ∨
        (runLoop inps s).criticalBreathCounter > 300) := by
  induction inps generalizing s with
  | nil => exact absurd rfl hne
  | cons inp rest ih =>
    rw [runLoop_cons]
    by_cases hr : rest = []
    · subst hr
      rw [runLoop_nil]
      exact loop_buzzer inp s (h inp (List.mem_cons_self _ _))
    · exact ih (loop inp s) hr (fun j hj => h j (List.mem_cons_of_mem _ hj))

theorem runLoop_heartRate_noBeat (inps : List Input) (s : State)
    (h : ∀ inp ∈ inps, inp.beat = false) : (runLoop inps s).heartRate = s.heartRate := by
  induction inps generalizing s with
  | nil => rfl
  | cons inp rest ih =>
    rw [runLoop_cons, ih _ (fun j hj => h j (List.mem_cons_of_mem _ hj))]
    by_cases hir : inp.ir < 50000
    · rw [loop_noFinger inp s hir]
      rfl
    · rw [loop_heartRate inp s (not_lt.mp hir), h inp (List.mem_cons_self _ _),
        checkHeartRate_noBeat]

theorem runLoop_concat_spo2 (pre : List Input) (inp : Input) (s : State)
    (h : 50000 ≤ inp.ir) :
    (runLoop (pre ++ [inp]) s).spo2 =
      toFloat (toDouble (104 - toDouble
        (17 * toFloat (toFloat (inp.red : ℚ) / toFloat (inp.ir : ℚ))))) := by
  rw [runLoop_append, runLoop_cons, runLoop_nil, loop_spo2 inp _ h]

/-- The values after `n + 1` iterations of `apneaInput` from the initial state. -/
theorem apneaRun_values (n : Nat) :
    (runLoop (List.replicate (n + 1) apneaInput) initState).spo2 = 191 / 2 ∧
    (runLoop (List.replicate (n + 1) apneaInput) initState).heartRate = 0 ∧
    (runLoop (List.replicate (n + 1) apneaInput) initState).criticalBreathCounter =
      wrapInt ((n : Int) + 1) := by
  refine ⟨?_, ?_, ?_⟩
  · rw [List.replicate_succ' n apneaInput, runLoop_concat_spo2 _ _ _ (by decide)]
    simp only [apneaInput, Int.cast_ofNat]
    exact spo2_value_half
  · rw [runLoop_heartRate_noBeat _ _ (fun inp hin => by
      rw [List.eq_of_mem_replicate hin]
      rfl)]
    rfl
  · rw [runLoop_criticalBreathCounter _ initState (by decide)
        (fun inp hin _ => by rw [List.eq_of_mem_replicate hin]; decide),
      List.countP_eq_length.mpr
        (fun inp hin => by rw [List.eq_of_mem_replicate hin]; decide),
      List.length_replicate]
    congr 1
    push_cast
    exact zero_add _

/-- C17, as stated, fails: `criticalBreathCounter` is a 32-bit `int`.  In a run of
2147483648 monitoring iterations from the initial state, all with a piezo reading above
1000, `spo2 = 95.5` and `heartRate = 0`, the counter has wrapped to `-2147483648` and the
buzzer is LOW after the last iteration, a later one than the 301st. -/
theorem alarm_after_streak_counterexample :
    initState.criticalBreathCounter = 0 ∧
    (50000 ≤ apneaInput.ir ∧ 1000 < apneaInput.piezo) ∧
    (300 : Nat) < (List.replicate 2147483648 apneaInput).length ∧
    95 ≤ (runLoop (List.replicate 2147483648 apneaInput) initState).spo2 ∧
    (runLoop (List.replicate 2147483648 apneaInput) initState).heartRate ≤ 150 ∧
    (runLoop (List.replicate 2147483648 apneaInput) initState).criticalBreathCounter =
      -2147483648 ∧
    (runLoop (List.replicate 2147483648 apneaInput) initState).buzzer = false := by
  obtain ⟨hs, hh, hc⟩ := apneaRun_values 2147483647
  have hs : (runLoop (List.replicate 2147483648 apneaInput) initState).spo2 = 191 / 2 := hs
  have hh : (runLoop (List.replicate 2147483648 apneaInput) initState).heartRate = 0 := hh
  have hc : (runLoop (List.replicate 2147483648 apneaInput) initState).criticalBreathCounter =
      -2147483648 := by
    rw [show (2147483648 : Nat) = 2147483647 + 1 from rfl, hc]
    decide
  have hne : List.replicate 2147483648 apneaInput ≠ [] := by
    intro hnil
    have hl := congrArg List.length hnil
    rw [List.length_replicate, List.length_nil] at hl
    omega
  have hb := runLoop_buzzer (List.replicate 2147483648 apneaInput) initState hne
    (fun inp hin => by rw [List.eq_of_mem_replicate hin]; decide)
  refine ⟨rfl, by decide, ?_, ?_, ?_, hc, ?_⟩
  · rw [List.length_replicate]
    decide
  · rw [hs]
    norm_num
  · rw [hh]
    decide
  · rw [hb, decide_eq_false_iff_not, hs, hh, hc]
    norm_num

/-- C17, amended: starting from `criticalBreathCounter = 0`, in a run of monitoring
iterations that all read a piezo value above 1000, after the `n`-th iteration, for
`n ≤ 2147483647` (while the 32-bit counter has not overflowed), if its `spo2` is at least
95 and its `heartRate` at most 150, the buzzer is HIGH exactly when `n > 300`: LOW after
each of the first 300 iterations, HIGH after the 301st and every later one up to the
2147483647th.  A monitoring iteration with a piezo reading of at most 1000, `spo2` at
least 95 and `heartRate` at most 150 leaves the buzzer LOW, whatever the state before. -/
theorem alarm_after_streak (s : State) (inps : List Input)
    (h0 : s.criticalBreathCounter = 0)
    (h : ∀ inp ∈ inps, 50000 ≤ inp.ir ∧ 1000 < inp.piezo) :
    (∀ n : Nat, 0 < n → n ≤ inps.length → n ≤ 2147483647 →
      95 ≤ (runLoop (inps.take n) s).spo2 → (runLoop (inps.take n) s).heartRate ≤ 150 →
      ((runLoop (inps.take n) s).criticalBreathCounter = (n : Int) ∧
        ((runLoop (inps.take n) s).buzzer = true ↔ 300 < n) ∧
        ((runLoop (inps.take n) s).buzzer = false ↔ n ≤ 300))) ∧
    (∀ (t : State) (inp : Input), 50000 ≤ inp.ir → inp.piezo ≤ 1000 →
      95 ≤ (loop inp t).spo2 → (loop inp t).heartRate ≤ 150 →
      (loop inp t).buzzer = false) := by
  refine ⟨?_, ?_⟩
  · intro n hn hlen hmax hspo hhr
    have hmem : ∀ inp ∈ inps.take n, 50000 ≤ inp.ir ∧ 1000 < inp.piezo :=
      fun inp hin => h inp (List.mem_of_mem_take hin)
    have hne : inps.take n ≠ [] := by
      intro hc
      have hl : (inps.take n).length = n := List.length_take_of_le hlen
      rw [hc] at hl
      simp at hl
      omega
    have hcnt : (runLoop (inps.take n) s).criticalBreathCounter = (n : Int) := by
      rw [runLoop_criticalBreathCounter _ s (by rw [h0]; decide)
          (fun inp hin _ => (hmem inp hin).2), h0, zero_add,
        List.countP_eq_length.mpr (fun inp hin => by simpa using (hmem inp hin).1),
        List.length_take_of_le hlen]
      exact wrapInt_of_range _ (by omega) (by omega)
    have hbz := runLoop_buzzer (inps.take n) s hne (fun inp hin => (hmem inp hin).1)
    have hcond : ((runLoop (inps.take n) s).spo2 < 95 ∨
        (runLoop (inps.take n) s).heartRate > 150 ∨
        (runLoop (inps.take n) s).criticalBreathCounter > 300) ↔ 300 < n := by
      rw [hcnt]
      constructor
      · rintro (h1 | h1 | h1)
        · exact absurd h1 (not_lt.mpr hspo)
        · omega
        · omega
      · intro h1
        exact Or.inr (Or.inr (by omega))
    refine ⟨hcnt, ?_, ?_⟩
    · rw [hbz, decide_eq_true_iff, hcond]
    · rw [hbz, decide_eq_false_iff_not, hcond, not_lt]
  · intro t inp hir hp hspo hhr
    rw [loop_buzzer inp t hir, decide_eq_false_iff_not,
      loop_criticalBreathCounter inp t hir, if_neg (by omega)]
    rintro (h1 | h1 | h1)
    · exact absurd h1 (not_lt.mpr hspo)
    · omega
    · omega

theorem alarm_after_streak_witness :
    initState.criticalBreathCounter = 0 ∧
    (∀ inp ∈ List.replicate 301 apneaInput, 50000 ≤ inp.ir ∧ 1000 < inp.piezo) ∧
    (runLoop ((List.replicate 301 apneaInput).take 301) initState).buzzer = true :=
  ⟨rfl,
    fun inp hin => by rw [List.eq_of_mem_replicate hin]; decide,
    ((alarm_after_streak initState (List.replicate 301 apneaInput) rfl
      (fun inp hin => by rw [List.eq_of_mem_replicate hin]; decide)).1 301 (by decide)
      (le_of_eq (List.length_replicate 301 apneaInput).symm) (by decide)
      (by rw [List.take_replicate, min_self, (apneaRun_values 300).1]; norm_num)
      (by rw [List.take_replicate, min_self, (apneaRun_values 300).2.1]; decide)).2.1.mpr
      (by decide)⟩

/-! ## Beats at most once per second -/

/-- A beat at least 1000 ms after the previous one stores at most 60. -/
theorem constrain_rawBpm_le_60 (delta : Int) (h : 1000 ≤ delta) :
    constrain (rawBpm delta) 30 180 ≤ 60 := by
  have hq : rawBpm delta ≤ 60 := by
    rw [rawBpm_eq_tdiv, Int.tdiv_eq_ediv (by norm_num) (by omega)]
    have : (60000 : Int) / delta < 61 := by
      apply Int.ediv_lt_of_lt_mul (by omega)
      omega
    omega
  unfold constrain
  split_ifs <;> omega

theorem clockSpaced_append (prev : Option Int) (pre post : List Input)
    (h : clockSpaced prev (pre ++ post)) :
    clockSpaced prev pre ∧ clockSpaced (lastClock prev pre) post := by
  induction pre generalizing prev with
  | nil => exact ⟨trivial, h⟩
  | cons inp rest ih =>
    by_cases hir : inp.ir < 50000
    · simp only [List.cons_append, clockSpaced, lastClock, if_pos hir] at h ⊢
      exact ih prev h
    · simp only [List.cons_append, clockSpaced, lastClock, if_neg hir] at h ⊢
      exact ⟨⟨h.1, (ih _ h.2).1⟩, (ih _ h.2).2⟩

theorem loop_slowBeats (inp : Input) (k : Nat) (prev : Option Int) (s : State)
    (h : SlowBeats k prev s)
    (hc : 50000 ≤ inp.ir → ∀ t ∈ prev, t + 1000 ≤ inp.now) :
    SlowBeats (k + beatCount [inp]) (if inp.ir < 50000 then prev else some inp.now)
      (loop inp s) := by
  obtain ⟨hn, h0, h1, h2, h3, hk0, hk⟩ := h
  by_cases hir : inp.ir < 50000
  · have hcnt : beatCount [inp] = 0 := by
      simp [beatCount, List.countP_cons, hir]
    rw [loop_noFinger inp s hir, hcnt, if_pos hir]
    exact ⟨hn, h0, h1, h2, h3, hk0, hk⟩
  · have hm : 50000 ≤ inp.ir := not_lt.mp hir
    obtain ⟨e1, e2, e3⟩ := loop_estimator inp s hm
    rw [if_neg hir]
    unfold SlowBeats
    rw [e1, e2, e3]
    cases hb : inp.beat
    · have hcnt : beatCount [inp] = 0 := by
        simp [beatCount, List.countP_cons, hb]
      rw [hcnt, checkHeartRate_noBeat]
      refine ⟨hn, h0, h1, h2, h3, hk0, ?_⟩
      intro hpos
      obtain ⟨t, ht, hle⟩ := hk hpos
      have := hc hm t (by rw [ht]; rfl)
      exact ⟨inp.now, rfl, by show s.lastBeat ≤ inp.now; omega⟩
    · have hcnt : beatCount [inp] = 1 := by
        simp [beatCount, List.countP_cons, hb, hm]
      have hb1 := constrain_bounds (rawBpm (inp.now - s.lastBeat)) 30 180 (by norm_num)
      have hv : s.rateIndex ≠ 0 → constrain (rawBpm (inp.now - s.lastBeat)) 30 180 ≤ 60 := by
        intro hne
        have hpos : 0 < k := by
          by_contra hc0
          exact hne (hk0 (by omega))
        obtain ⟨t, ht, hle⟩ := hk hpos
        have := hc hm t (by rw [ht]; rfl)
        exact constrain_rawBpm_le_60 _ (by omega)
      rw [hcnt, checkHeartRate_beat]
      refine ⟨?_, ?_, ?_, ?_, ?_, ?_, ?_⟩
      · intro j
        show 0 ≤ setRate s.rates s.rateIndex _ j
        unfold setRate
        split_ifs
        · omega
        · exact hn j
      · show setRate s.rates s.rateIndex _ 0 ≤ 180
        unfold setRate
        split_ifs
        · omega
        · exact h0
      · show setRate s.rates s.rateIndex _ 1 ≤ 60
        unfold setRate
        split_ifs with hj
        · exact hv (by rw [← hj]; decide)
        · exact h1
      · show setRate s.rates s.rateIndex _ 2 ≤ 60
        unfold setRate
        split_ifs with hj
        · exact hv (by rw [← hj]; decide)
        · exact h2
      · show setRate s.rates s.rateIndex _ 3 ≤ 60
        unfold setRate
        split_ifs with hj
        · exact hv (by rw [← hj]; decide)
        · exact h3
      · intro hc0
        omega
      · intro _
        exact ⟨inp.now, rfl, le_refl _⟩

theorem runLoop_slowBeats (inps : List Input) (k : Nat) (prev : Option Int) (s : State)
    (h : SlowBeats k prev s) (hc : clockSpaced prev inps) :
    SlowBeats (k + beatCount inps) (lastClock prev inps) (runLoop inps s) := by
  induction inps generalizing k prev s with
  | nil => simpa [beatCount, runLoop_nil, lastClock] using h
  | cons inp rest ih =>
    rw [runLoop_cons, beatCount_cons, ← Nat.add_assoc]
    by_cases hir : inp.ir < 50000
    · simp only [clockSpaced, lastClock, if_pos hir] at hc ⊢
      have hstep := loop_slowBeats inp k prev s h (fun hm => absurd hir (not_lt.mpr hm))
      rw [if_pos hir] at hstep
      exact ih _ _ _ hstep hc
    · simp only [clockSpaced, lastClock, if_neg hir] at hc ⊢
      have hstep := loop_slowBeats inp k prev s h (fun _ => hc.1)
      rw [if_neg hir] at hstep
      exact ih _ _ _ hstep hc.2

theorem initState_slowBeats : SlowBeats 0 none initState := by
  refine ⟨fun j => le_refl _, by decide, by decide, by decide, by decide, fun _ => rfl,
    fun h => absurd h (lt_irrefl _)⟩

/-- C15: under the clock assumption (each monitoring iteration reads the clock at least
1000 ms after the previous monitoring iteration), every beat detected after the first has
`delta ≥ 1000` and stores a bpm value of at most 60; so in every state reached from the
initial state `heartRate` is at most 90 and the alarm condition `heartRate > 150` is
false. -/
theorem slow_clock_heartRate (inps : List Input) (h : clockSpaced none inps) :
    (∀ (pre post : List Input) (inp : Input), inps = pre ++ inp :: post →
      50000 ≤ inp.ir → inp.beat = true → 0 < beatCount pre →
      1000 ≤ inp.now - (runLoop pre initState).lastBeat ∧
      constrain (rawBpm (inp.now - (runLoop pre initState).lastBeat)) 30 180 ≤ 60 ∧
      (runLoop (pre ++ [inp]) initState).rates =
        setRate (runLoop pre initState).rates (runLoop pre initState).rateIndex
          (constrain (rawBpm (inp.now - (runLoop pre initState).lastBeat)) 30 180)) ∧
    (runLoop inps initState).heartRate ≤ 90 ∧
    ¬ ((runLoop inps initState).heartRate > 150) := by
  have hhr : (runLoop inps initState).heartRate ≤ 90 := by
    obtain ⟨hn, h0, h1, h2, h3, -, -⟩ :=
      runLoop_slowBeats inps 0 none initState initState_slowBeats h
    have hsum : 0 ≤ sumRates (runLoop inps initState).rates := by
      rw [sumRates_eq]
      have := hn 0
      have := hn 1
      have := hn 2
      have := hn 3
      omega
    rw [runLoop_mean inps initState initState_mean, Int.tdiv_eq_ediv hsum (by norm_num),
      sumRates_eq]
    omega
  refine ⟨?_, hhr, by omega⟩
  intro pre post inp hsplit hir hbeat hcount
  subst hsplit
  obtain ⟨hpre, hpost⟩ := clockSpaced_append none pre (inp :: post) h
  simp only [clockSpaced, if_neg (not_lt.mpr hir)] at hpost
  obtain ⟨-, -, -, -, -, -, hk⟩ :=
    runLoop_slowBeats pre 0 none initState initState_slowBeats hpre
  obtain ⟨t, ht, hle⟩ := hk (by omega)
  have hgap := hpost.1 t (by rw [ht]; rfl)
  have hdelta : 1000 ≤ inp.now - (runLoop pre initState).lastBeat := by omega
  refine ⟨hdelta, constrain_rawBpm_le_60 _ hdelta, ?_⟩
  rw [runLoop_append, runLoop_cons, runLoop_nil, (loop_estimator inp _ hir).1, hbeat,
    checkHeartRate_beat]

theorem slow_clock_heartRate_witness :
    clockSpaced none [beatInput, noFingerInput, lateBeatInput] ∧
    (runLoop [beatInput, noFingerInput, lateBeatInput] initState).heartRate ≤ 90 :=
  ⟨by simp [clockSpaced, beatInput, noFingerInput, lateBeatInput],
    (slow_clock_heartRate [beatInput, noFingerInput, lateBeatInput]
      (by simp [clockSpaced, beatInput, noFingerInput, lateBeatInput])).2.1⟩

end Monitor
